import Mathlib

/-!
Shallow embedding of the lifting-diary data access layer.

The persistent store (src/db/schema.ts) is modelled as an explicit `DB`
record of row lists; the resolved session identity (Clerk `auth()`) is an
`Option String` parameter; each data-layer operation
(src/data/workouts.ts and the data-function bodies in
src/docs/data-fetching.md / src/docs/auth.md) becomes a pure function that
threads the store state explicitly.  SQL `ORDER BY` is modelled by an
insertion sort on the ordering key, `LIMIT 1` + `result[0] ?? null` by
`List.head?`, thrown errors by `Except.error`.
-/

/-- Row of the `exercises` table (src/db/schema.ts lines 5-10). -/
structure ExerciseRow where
  id : Nat
  name : String
  createdAt : Int
  updatedAt : Int
deriving DecidableEq

/-- Row of the `workouts` table (src/db/schema.ts lines 13-21). -/
structure Workout where
  id : Nat
  userId : String
  name : Option String
  startedAt : Int
  completedAt : Option Int
  createdAt : Int
  updatedAt : Int
deriving DecidableEq

/-- Row of the `workout_exercises` junction table (src/db/schema.ts lines 24-34). -/
structure WorkoutExercise where
  id : Nat
  workoutId : Nat
  exerciseId : Nat
  order : Int
  createdAt : Int
deriving DecidableEq

/-- Row of the `sets` table (src/db/schema.ts lines 37-46). -/
structure SetRow where
  id : Nat
  workoutExerciseId : Nat
  setNumber : Int
  weight : Rat
  reps : Int
  createdAt : Int
deriving DecidableEq

/-- The persistent store: the four tables plus a counter modelling the
store's default-generated identifiers (`uuid(...).defaultRandom()`). -/
structure DB where
  exercises : List ExerciseRow
  workouts : List Workout
  workoutExercises : List WorkoutExercise
  sets : List SetRow
  nextId : Nat
deriving DecidableEq

deriving instance DecidableEq for Except

/-- Insert `x` into `l` keeping `l` ordered by `key` (helper for `sortByKey`). -/
def insertByKey {α β : Type} [LinearOrder β] (key : α → β) (x : α) : List α → List α
  | [] => [x]
  | y :: ys => if key x ≤ key y then x :: y :: ys else y :: insertByKey key x ys

/-- Insertion sort by a key, modelling SQL `ORDER BY key` (ascending). -/
def sortByKey {α β : Type} [LinearOrder β] (key : α → β) : List α → List α
  | [] => []
  | x :: xs => insertByKey key x (sortByKey key xs)

/-- One day in milliseconds. -/
def msPerDay : Int := 86400000

/-- `startOfDay` from date-fns: the first instant of the calendar day of `t`. -/
def startOfDay (t : Int) : Int := msPerDay * (t.fdiv msPerDay)

/-- `endOfDay` from date-fns: the last millisecond of the calendar day of `t`. -/
def endOfDay (t : Int) : Int := startOfDay t + (msPerDay - 1)

/-- Shape of one set in the nested result of `getUserWorkoutsByDate`
(the inner select in src/data/workouts.ts lines 54-63). -/
structure SetOut where
  id : Nat
  setNumber : Int
  weight : Rat
  reps : Int
deriving DecidableEq

/-- Shape of one exercise in the nested result of `getUserWorkoutsByDate`
(src/data/workouts.ts lines 65-70). -/
structure ExerciseOut where
  id : Nat
  name : String
  order : Int
  sets : List SetOut
deriving DecidableEq

/-- Shape of one workout in the nested result of `getUserWorkoutsByDate`
(src/data/workouts.ts lines 19-25 and 74-77). -/
structure WorkoutOut where
  id : Nat
  name : Option String
  startedAt : Int
  completedAt : Option Int
  userId : String
  exercises : List ExerciseOut
deriving DecidableEq

/-- The nested-detail assembly for one workout: the body of the
`userWorkouts.map` in src/data/workouts.ts lines 38-78 — the
workout-exercise rows inner-joined with the exercise catalog, ordered by
stored position, each with its sets ordered by set number. -/
def renderWorkout (db : DB) (w : Workout) : WorkoutOut :=
  let weRows := (db.workoutExercises.filter fun we => we.workoutId == w.id).flatMap
    fun we => (db.exercises.filter fun e => e.id == we.exerciseId).map fun e => (we, e)
  let ordered := sortByKey (fun pr => pr.1.order) weRows
  { id := w.id, name := w.name, startedAt := w.startedAt, completedAt := w.completedAt,
    userId := w.userId,
    exercises := ordered.map fun pr =>
      { id := pr.2.id, name := pr.2.name, order := pr.1.order,
        sets := (sortByKey (fun s => s.setNumber)
            (db.sets.filter fun s => s.workoutExerciseId == pr.1.id)).map
          fun s => { id := s.id, setNumber := s.setNumber, weight := s.weight, reps := s.reps } } }

/-- `getUserWorkoutsByDate` (src/data/workouts.ts lines 7-82): resolve the
session, reject if absent, then select the caller's workouts whose start
falls within the day of `date` (inclusive boundaries), ordered by start
time, each assembled with its nested exercises and sets. -/
def getUserWorkoutsByDate (session : Option String) (db : DB) (date : Int) :
    Except String (List WorkoutOut) :=
  match session with
  | none => Except.error "Unauthorized"
  | some uid =>
    let dayStart := startOfDay date
    let dayEnd := endOfDay date
    let userWorkouts := sortByKey (fun w => w.startedAt)
      (db.workouts.filter fun w =>
        w.userId == uid && decide (dayStart ≤ w.startedAt) && decide (w.startedAt ≤ dayEnd))
    Except.ok (userWorkouts.map (renderWorkout db))

/-- `getWorkoutById` (src/docs/data-fetching.md lines 127-146): select
filtered by both workout id and session user id, `limit 1`, returning
`result[0] ?? null`. -/
def getWorkoutById (session : Option String) (db : DB) (workoutId : Nat) :
    Except String (Option Workout) :=
  match session with
  | none => Except.error "Unauthorized"
  | some uid =>
    let result := db.workouts.filter fun w => w.id == workoutId && w.userId == uid
    Except.ok result.head?

/-- Input payload of `createWorkout`.  The `userId` field models a
client-supplied owner field riding along in `data`; the insert spreads
`data` and then overwrites `userId` with the session identity
(`values({ ...data, userId: session.user.id })`), so this field never
reaches the stored row. -/
structure NewWorkoutInput where
  name : Option String
  startedAt : Int
  userId : Option String
deriving DecidableEq

/-- `createWorkout` (src/docs/data-fetching.md lines 166-182): resolve the
session, reject if absent, then insert a row whose owner is forced to the
session user id, with a default-generated identifier, no completion
timestamp, and `created_at`/`updated_at` defaulted to now. -/
def createWorkout (session : Option String) (now : Int) (db : DB) (data : NewWorkoutInput) :
    Except String Workout × DB :=
  match session with
  | none => (Except.error "Unauthorized", db)
  | some uid =>
    let w : Workout :=
      { id := db.nextId, userId := uid, name := data.name, startedAt := data.startedAt,
        completedAt := none, createdAt := now, updatedAt := now }
    (Except.ok w, { db with workouts := db.workouts ++ [w], nextId := db.nextId + 1 })

/-- `Partial<NewWorkout>` for `updateWorkout`: each field is present
(`some`) or absent (`none`); present fields overwrite the row's value. -/
structure WorkoutPatch where
  name : Option (Option String)
  startedAt : Option Int
  completedAt : Option (Option Int)
deriving DecidableEq

/-- The effect of `.set(data)` on one row: fields present in the patch
overwrite, absent fields keep the row's previous value. -/
def applyPatch (p : WorkoutPatch) (w : Workout) : Workout :=
  { w with name := p.name.getD w.name, startedAt := p.startedAt.getD w.startedAt,
           completedAt := p.completedAt.getD w.completedAt }

/-- `updateWorkout` (src/docs/data-fetching.md lines 201-227): resolve the
session, reject if absent; `UPDATE ... WHERE id = ? AND user_id = ?
RETURNING *`; if no row was updated throw the collapsed
not-found-or-unauthorized error, else return the updated row. -/
def updateWorkout (session : Option String) (db : DB) (workoutId : Nat) (p : WorkoutPatch) :
    Except String Workout × DB :=
  match session with
  | none => (Except.error "Unauthorized", db)
  | some uid =>
    let newWorkouts := db.workouts.map fun w =>
      if w.id == workoutId && w.userId == uid then applyPatch p w else w
    let returned := (db.workouts.filter fun w => w.id == workoutId && w.userId == uid).map
      (applyPatch p)
    match returned with
    | [] => (Except.error "Workout not found or unauthorized", { db with workouts := newWorkouts })
    | r :: _ => (Except.ok r, { db with workouts := newWorkouts })

/-- `deleteWorkout` (src/docs/data-fetching.md lines 236-258): resolve the
session, reject if absent; `DELETE ... WHERE id = ? AND user_id = ?
RETURNING *`; if no row was deleted throw the collapsed
not-found-or-unauthorized error.  The store's foreign keys carry
`onDelete: "cascade"` (src/db/schema.ts lines 26-31 and 39-41), so the
deleted workouts' workout-exercise rows, and those rows' sets, go too. -/
def deleteWorkout (session : Option String) (db : DB) (workoutId : Nat) :
    Except String Workout × DB :=
  match session with
  | none => (Except.error "Unauthorized", db)
  | some uid =>
    match db.workouts.filter fun w => w.id == workoutId && w.userId == uid with
    | [] => (Except.error "Workout not found or unauthorized", db)
    | r :: rest =>
      let deletedIds := (r :: rest).map fun w => w.id
      let remainingWorkouts := db.workouts.filter fun w => !(w.id == workoutId && w.userId == uid)
      let removedWEIds := (db.workoutExercises.filter
        fun we => deletedIds.contains we.workoutId).map fun we => we.id
      let keptWE := db.workoutExercises.filter fun we => !(deletedIds.contains we.workoutId)
      let keptSets := db.sets.filter fun s => !(removedWEIds.contains s.workoutExerciseId)
      (Except.ok r,
        { db with workouts := remainingWorkouts, workoutExercises := keptWE, sets := keptSets })

/-- The regex `^\d{4}-\d{2}-\d{2}T\d{2}:\d{2}$` of `CreateWorkoutSchema`
(src/app/dashboard/workout/actions.ts line 10). -/
def isDatetimeLocalFormat (s : String) : Bool :=
  match s.toList with
  | [a, b, c, d, h1, e, f, h2, g, h, t, i, j, col, k, l] =>
      a.isDigit && b.isDigit && c.isDigit && d.isDigit && h1 == '-' &&
      e.isDigit && f.isDigit && h2 == '-' && g.isDigit && h.isDigit &&
      t == 'T' && i.isDigit && j.isDigit && col == ':' && k.isDigit && l.isDigit
  | _ => false

/-- Numeric value of a decimal digit character. -/
def digitVal (c : Char) : Nat := c.toNat - 48

/-- Models the host environment's `new Date(validated.startedAt)` on a
string that already matched the `yyyy-MM-ddTHH:mm` format: an injective
minutes-since-origin encoding of the five numeric fields.  No claim
depends on the numeric value, only on its being a function of the
validated string. -/
def parseDatetimeLocal (s : String) : Int :=
  match s.toList with
  | [a, b, c, d, _, e, f, _, g, h, _, i, j, _, k, l] =>
      Int.ofNat
        ((((digitVal a * 10 + digitVal b) * 10 + digitVal c) * 10 + digitVal d) * 535680 +
          (digitVal e * 10 + digitVal f) * 44640 +
          (digitVal g * 10 + digitVal h) * 1440 +
          (digitVal i * 10 + digitVal j) * 60 +
          (digitVal k * 10 + digitVal l)) * 60000
  | _ => 0

/-- Input to `createWorkoutAction`: `{ name: string | null; startedAt: string }`. -/
structure ActionInput where
  name : Option String
  startedAt : String
deriving DecidableEq

/-- The `name` rule of `CreateWorkoutSchema`:
`z.string().min(1).max(100).nullable()` — null passes, a string needs
length between 1 and 100. -/
def nameOk (n : Option String) : Bool :=
  match n with
  | none => true
  | some s => decide (1 ≤ s.length) && decide (s.length ≤ 100)

/-- `CreateWorkoutSchema.parse` (src/app/dashboard/workout/actions.ts
lines 8-11): `some` of the input when both fields validate, `none` for a
thrown `ZodError`. -/
def zodParse (input : ActionInput) : Option ActionInput :=
  if nameOk input.name && isDatetimeLocalFormat input.startedAt then some input else none

/-- Result shape of `createWorkoutAction`: `{success: true, workout}` or
`{success: false, error}`. -/
inductive ActionResult where
  | success (workout : Workout)
  | failure (error : String)
deriving DecidableEq

/-- `createWorkoutAction` (src/app/dashboard/workout/actions.ts
lines 14-52): validate with the Zod schema (a `ZodError` becomes the
`"Validation failed"` result, before any store access), convert
`startedAt` to a date, call `createWorkout`, and surface a thrown error
message as a failure result. -/
def createWorkoutAction (session : Option String) (now : Int) (db : DB) (input : ActionInput) :
    ActionResult × DB :=
  match zodParse input with
  | none => (ActionResult.failure "Validation failed", db)
  | some v =>
    match createWorkout session now db
        { name := v.name, startedAt := parseDatetimeLocal v.startedAt, userId := none } with
    | (Except.ok w, db') => (ActionResult.success w, db')
    | (Except.error e, db') => (ActionResult.failure e, db')

/-- Host `String.prototype.trim`: drop leading and trailing whitespace. -/
def trimChars (l : List Char) : List Char :=
  ((l.dropWhile Char.isWhitespace).reverse.dropWhile Char.isWhitespace).reverse

/-- Host `String.prototype.trim` on strings. -/
def strTrim (s : String) : String := String.mk (trimChars s.toList)

/-- The name mapping of the new-workout form's submit handler
(`name.trim() || null` in NewWorkoutPage.handleSubmit): a blank input
becomes null, anything else its trimmed text. -/
def formNameToPayload (s : String) : Option String :=
  if strTrim s == "" then none else some (strTrim s)

/-- A store with no rows, for instantiating theorems at concrete inputs. -/
def emptyDB : DB :=
  { exercises := [], workouts := [], workoutExercises := [], sets := [], nextId := 0 }

/-- A store holding one workout owned by `bob`, for concrete instantiation. -/
def dbBob : DB :=
  { exercises := [], workouts := [Workout.mk 1 "bob" none 0 none 0 0],
    workoutExercises := [], sets := [], nextId := 2 }

/-- A store holding one `alice` workout and one `bob` workout, for concrete
instantiation. -/
def dbAB : DB :=
  { exercises := [],
    workouts := [Workout.mk 1 "alice" (some "Leg Day") 100 none 0 0,
                 Workout.mk 2 "bob" none 200 none 0 0],
    workoutExercises := [], sets := [], nextId := 3 }

/-- A store holding one `alice` workout with one exercise and two sets, for
concrete instantiation of the nested-listing theorems. -/
def dbNested : DB :=
  { exercises := [ExerciseRow.mk 5 "Squat" 0 0],
    workouts := [Workout.mk 1 "alice" (some "Leg Day") 100 none 0 0],
    workoutExercises := [WorkoutExercise.mk 10 1 5 1 0],
    sets := [SetRow.mk 20 10 1 135 5 0, SetRow.mk 21 10 2 155 5 0],
    nextId := 30 }

/-- The nested listing entry produced for `dbNested`'s single workout. -/
def nestedOut : WorkoutOut :=
  { id := 1, name := some "Leg Day", startedAt := 100, completedAt := none, userId := "alice",
    exercises := [ExerciseOut.mk 5 "Squat" 1
      [SetOut.mk 20 1 135 5, SetOut.mk 21 2 155 5]] }

/-- A patch that renames a workout and leaves the other fields absent. -/
def patchPush : WorkoutPatch :=
  WorkoutPatch.mk (some (some "Push Day")) none none

/-- `dbAB` after `alice` applies `patchPush` to workout 1. -/
def dbABUpd : DB :=
  { exercises := [],
    workouts := [Workout.mk 1 "alice" (some "Push Day") 100 none 0 0,
                 Workout.mk 2 "bob" none 200 none 0 0],
    workoutExercises := [], sets := [], nextId := 3 }

/-- `dbNested` after `alice` deletes workout 1: the cascade leaves only
the exercise catalog. -/
def dbNestedDel : DB :=
  { exercises := [ExerciseRow.mk 5 "Squat" 0 0],
    workouts := [], workoutExercises := [], sets := [], nextId := 30 }

/-- Inserting preserves the elements: membership in `insertByKey` is
membership in the tail or being the inserted element. -/
theorem mem_insertByKey {α β : Type} [LinearOrder β] (key : α → β) (x y : α) (l : List α) :
    y ∈ insertByKey key x l ↔ y = x ∨ y ∈ l := by
  induction l with
  | nil => simp [insertByKey]
  | cons a as ih =>
    by_cases h : key x ≤ key a
    · simp [insertByKey, h]
    · simp only [insertByKey, if_neg h, List.mem_cons, ih]
      tauto

/-- Sorting preserves the elements. -/
theorem mem_sortByKey {α β : Type} [LinearOrder β] (key : α → β) (y : α) (l : List α) :
    y ∈ sortByKey key l ↔ y ∈ l := by
  induction l with
  | nil => simp [sortByKey]
  | cons a as ih => simp [sortByKey, mem_insertByKey, ih]

/-- Inserting into a list that is ordered by the key keeps it ordered. -/
theorem pairwise_insertByKey {α β : Type} [LinearOrder β] (key : α → β) (x : α) (l : List α)
    (h : l.Pairwise fun a b => key a ≤ key b) :
    (insertByKey key x l).Pairwise fun a b => key a ≤ key b := by
  induction l with
  | nil => simp [insertByKey]
  | cons a as ih =>
    rcases List.pairwise_cons.mp h with ⟨ha, has⟩
    by_cases hle : key x ≤ key a
    · simp only [insertByKey, if_pos hle, List.pairwise_cons, List.mem_cons]
      refine ⟨?_, ha, has⟩
      rintro b (rfl | hb)
      · exact hle
      · exact le_trans hle (ha b hb)
    · simp only [insertByKey, if_neg hle, List.pairwise_cons]
      refine ⟨?_, ih has⟩
      intro b hb
      rcases (mem_insertByKey key x b as).mp hb with rfl | hb
      · exact le_of_lt (lt_of_not_le hle)
      · exact ha b hb

/-- The result of `sortByKey` is ordered ascending by the key. -/
theorem pairwise_sortByKey {α β : Type} [LinearOrder β] (key : α → β) (l : List α) :
    (sortByKey key l).Pairwise fun a b => key a ≤ key b := by
  induction l with
  | nil => simp [sortByKey]
  | cons a as ih => exact pairwise_insertByKey key a _ ih

/-- Characterisation of membership in the day listing built by
`getUserWorkoutsByDate` for a resolved caller `u`. -/
theorem mem_workoutsForDay (u : String) (db : DB) (date : Int) (wo : WorkoutOut) :
    wo ∈ (sortByKey (fun w => w.startedAt)
        (db.workouts.filter fun w =>
          w.userId == u && decide (startOfDay date ≤ w.startedAt) &&
            decide (w.startedAt ≤ endOfDay date))).map (renderWorkout db) ↔
      ∃ w, w ∈ db.workouts ∧ w.userId = u ∧ startOfDay date ≤ w.startedAt ∧
        w.startedAt ≤ endOfDay date ∧ wo = renderWorkout db w := by
  simp only [List.mem_map, mem_sortByKey, List.mem_filter, Bool.and_eq_true, beq_iff_eq,
    decide_eq_true_eq]
  constructor
  · rintro ⟨w, ⟨hmem, ⟨hu, hs⟩, he⟩, rfl⟩
    exact ⟨w, hmem, hu, hs, he, rfl⟩
  · rintro ⟨w, hmem, hu, hs, he, rfl⟩
    exact ⟨w, ⟨hmem, ⟨hu, hs⟩, he⟩, rfl⟩

/-- C6: with no resolvable caller identity, every data-access operation
rejects with the authorization failure `"Unauthorized"` and the store is
left unchanged — no read or write happens before the identity check. -/
theorem unauthenticatedRejectsAll (db : DB) (date : Int) (wid : Nat) (p : WorkoutPatch)
    (d : NewWorkoutInput) (now : Int) :
    getUserWorkoutsByDate none db date = Except.error "Unauthorized" ∧
    getWorkoutById none db wid = Except.error "Unauthorized" ∧
    createWorkout none now db d = (Except.error "Unauthorized", db) ∧
    updateWorkout none db wid p = (Except.error "Unauthorized", db) ∧
    deleteWorkout none db wid = (Except.error "Unauthorized", db) :=
  ⟨rfl, rfl, rfl, rfl, rfl⟩

/-- C2: the created workout's owner is always the resolved session
identity; two payloads that agree except for a client-supplied owner
field produce workouts with the same owner. -/
theorem createWorkout_ownerForced (u : String) (now1 now2 : Int) (db1 db2 : DB)
    (d1 d2 : NewWorkoutInput) (w1 w2 : Workout) (db1' db2' : DB)
    (hname : d1.name = d2.name) (hstart : d1.startedAt = d2.startedAt)
    (h1 : createWorkout (some u) now1 db1 d1 = (Except.ok w1, db1'))
    (h2 : createWorkout (some u) now2 db2 d2 = (Except.ok w2, db2')) :
    w1.userId = u ∧ w2.userId = u ∧ w1.userId = w2.userId := by
  simp only [createWorkout, Prod.mk.injEq, Except.ok.injEq] at h1 h2
  obtain ⟨hw1, -⟩ := h1
  obtain ⟨hw2, -⟩ := h2
  subst hw1
  subst hw2
  exact ⟨rfl, rfl, rfl⟩

/-- Witness for C2 at concrete inputs: the two payloads differ only in the
client-supplied owner field, and both created workouts belong to `alice`. -/
theorem createWorkout_ownerForced_witness :
    (Workout.mk 0 "alice" (some "Leg Day") 5 none 0 0).userId = "alice" ∧
    (Workout.mk 0 "alice" (some "Leg Day") 5 none 0 0).userId = "alice" ∧
    (Workout.mk 0 "alice" (some "Leg Day") 5 none 0 0).userId =
      (Workout.mk 0 "alice" (some "Leg Day") 5 none 0 0).userId :=
  createWorkout_ownerForced "alice" 0 0 emptyDB emptyDB
    { name := some "Leg Day", startedAt := 5, userId := none }
    { name := some "Leg Day", startedAt := 5, userId := some "mallory" }
    _ _ _ _ rfl rfl rfl rfl

/-- C4: when no workout with the given id is owned by the caller — whether
the id is absent from the store or the row belongs to someone else —
`updateWorkout` and `deleteWorkout` both fail with the one collapsed
error `"Workout not found or unauthorized"`. -/
theorem mutateNotFoundCollapsed (u : String) (db : DB) (wid : Nat) (p : WorkoutPatch)
    (hno : ∀ w ∈ db.workouts, ¬(w.id = wid ∧ w.userId = u)) :
    (updateWorkout (some u) db wid p).1 = Except.error "Workout not found or unauthorized" ∧
    (deleteWorkout (some u) db wid).1 = Except.error "Workout not found or unauthorized" := by
  have hfil : (db.workouts.filter fun w => w.id == wid && w.userId == u) = [] := by
    rw [List.filter_eq_nil_iff]
    intro a ha
    simpa using hno a ha
  constructor
  · simp [updateWorkout, hfil]
  · simp [deleteWorkout, hfil]

/-- Witness for C4 at concrete inputs: against a store holding only
`bob`'s workout 1, caller `alice` gets the same collapsed error for the
existing-but-not-hers id 1 and for the absent id 99, for update and for
delete alike. -/
theorem mutateNotFoundCollapsed_witness :
    ((updateWorkout (some "alice") dbBob 1 (WorkoutPatch.mk none none none)).1 =
        Except.error "Workout not found or unauthorized" ∧
      (deleteWorkout (some "alice") dbBob 1).1 =
        Except.error "Workout not found or unauthorized") ∧
    ((updateWorkout (some "alice") dbBob 99 (WorkoutPatch.mk none none none)).1 =
        Except.error "Workout not found or unauthorized" ∧
      (deleteWorkout (some "alice") dbBob 99).1 =
        Except.error "Workout not found or unauthorized") :=
  ⟨mutateNotFoundCollapsed "alice" dbBob 1 (WorkoutPatch.mk none none none) (by decide),
   mutateNotFoundCollapsed "alice" dbBob 99 (WorkoutPatch.mk none none none) (by decide)⟩

/-- C3: the day listing for caller `u` holds exactly the renderings of the
workouts owned by `u` whose start timestamp lies within the inclusive day
boundaries of `date` — nothing of other users, nothing outside the day. -/
theorem getUserWorkoutsByDate_exact (u : String) (db : DB) (date : Int) (l : List WorkoutOut)
    (h : getUserWorkoutsByDate (some u) db date = Except.ok l) (wo : WorkoutOut) :
    wo ∈ l ↔ ∃ w, w ∈ db.workouts ∧ w.userId = u ∧ startOfDay date ≤ w.startedAt ∧
      w.startedAt ≤ endOfDay date ∧ wo = renderWorkout db w := by
  simp only [getUserWorkoutsByDate, Except.ok.injEq] at h
  subst h
  exact mem_workoutsForDay u db date wo

/-- Witness for C3 at concrete inputs: `alice`'s nested listing for the
epoch day of `dbNested` contains exactly the rendering of her workout. -/
theorem getUserWorkoutsByDate_exact_witness :
    nestedOut ∈ [nestedOut] ↔
      ∃ w, w ∈ dbNested.workouts ∧ w.userId = "alice" ∧ startOfDay 0 ≤ w.startedAt ∧
        w.startedAt ≤ endOfDay 0 ∧ nestedOut = renderWorkout dbNested w :=
  getUserWorkoutsByDate_exact "alice" dbNested 0 [nestedOut] (by decide) nestedOut

/-- C5: in every day listing the workouts are ascending by start
timestamp, each workout's exercises ascending by stored order position,
and each exercise's sets ascending by set number. -/
theorem getUserWorkoutsByDate_sorted (u : String) (db : DB) (date : Int) (l : List WorkoutOut)
    (h : getUserWorkoutsByDate (some u) db date = Except.ok l) :
    l.Pairwise (fun a b => a.startedAt ≤ b.startedAt) ∧
    ∀ wo ∈ l, wo.exercises.Pairwise (fun a b => a.order ≤ b.order) ∧
      ∀ ex ∈ wo.exercises, ex.sets.Pairwise fun a b => a.setNumber ≤ b.setNumber := by
  simp only [getUserWorkoutsByDate, Except.ok.injEq] at h
  subst h
  constructor
  · have hp := pairwise_sortByKey (fun w : Workout => w.startedAt)
      (db.workouts.filter fun w =>
        w.userId == u && decide (startOfDay date ≤ w.startedAt) &&
          decide (w.startedAt ≤ endOfDay date))
    exact List.Pairwise.map (renderWorkout db) (fun a b hab => hab) hp
  · intro wo hwo
    obtain ⟨w, hw, rfl⟩ := List.mem_map.mp hwo
    constructor
    · have hp := pairwise_sortByKey (fun pr : WorkoutExercise × ExerciseRow => pr.1.order)
        ((db.workoutExercises.filter fun we => we.workoutId == w.id).flatMap
          fun we => (db.exercises.filter fun e => e.id == we.exerciseId).map fun e => (we, e))
      exact List.Pairwise.map _ (fun a b hab => hab) hp
    · intro ex hex
      obtain ⟨pr, hpr, rfl⟩ := List.mem_map.mp hex
      have hp := pairwise_sortByKey (fun s : SetRow => s.setNumber)
        (db.sets.filter fun s => s.workoutExerciseId == pr.1.id)
      exact List.Pairwise.map _ (fun a b hab => hab) hp

/-- Witness for C5 at concrete inputs: the nested listing of `dbNested`
satisfies all three ordering contracts. -/
theorem getUserWorkoutsByDate_sorted_witness :
    ([nestedOut] : List WorkoutOut).Pairwise (fun a b => a.startedAt ≤ b.startedAt) ∧
    ∀ wo ∈ [nestedOut], wo.exercises.Pairwise (fun a b => a.order ≤ b.order) ∧
      ∀ ex ∈ wo.exercises, ex.sets.Pairwise fun a b => a.setNumber ≤ b.setNumber :=
  getUserWorkoutsByDate_sorted "alice" dbNested 0 [nestedOut] (by decide)

/-- C1: under the store's primary-key uniqueness, `getWorkoutById` returns
a workout exactly when that workout is in the store with the requested id
and is owned by the caller; whenever no such owned row exists — id absent
or row owned by someone else — the result is the same not-found value
`none`, never a distinct forbidden outcome. -/
theorem getWorkoutById_exact (u : String) (db : DB) (wid : Nat)
    (hnd : (db.workouts.map fun w => w.id).Nodup) :
    (∀ w : Workout, getWorkoutById (some u) db wid = Except.ok (some w) ↔
      w ∈ db.workouts ∧ w.id = wid ∧ w.userId = u) ∧
    ((∀ w ∈ db.workouts, ¬(w.id = wid ∧ w.userId = u)) →
      getWorkoutById (some u) db wid = Except.ok none) := by
  constructor
  · intro w
    simp only [getWorkoutById, Except.ok.injEq]
    constructor
    · intro h
      have hw := List.mem_of_mem_head? h
      have hmem := List.mem_filter.mp hw
      have hcond := hmem.2
      simp only [Bool.and_eq_true, beq_iff_eq] at hcond
      exact ⟨hmem.1, hcond.1, hcond.2⟩
    · rintro ⟨hmem, hid, huid⟩
      have hwf : w ∈ db.workouts.filter fun x => x.id == wid && x.userId == u :=
        List.mem_filter.mpr ⟨hmem, by simp [hid, huid]⟩
      cases hh : (db.workouts.filter fun x => x.id == wid && x.userId == u).head? with
      | none =>
        rw [List.head?_eq_none_iff] at hh
        rw [hh] at hwf
        cases hwf
      | some v =>
        have hv := List.mem_of_mem_head? hh
        have hvm := List.mem_filter.mp hv
        have hvcond := hvm.2
        simp only [Bool.and_eq_true, beq_iff_eq] at hvcond
        have hveq : v = w :=
          List.inj_on_of_nodup_map hnd hvm.1 hmem (by rw [hvcond.1, hid])
        rw [hveq]
  · intro hno
    have hfil : (db.workouts.filter fun x => x.id == wid && x.userId == u) = [] := by
      rw [List.filter_eq_nil_iff]
      intro a ha
      simpa using hno a ha
    simp [getWorkoutById, hfil]

/-- Witness for C1 at concrete inputs: `alice` can read her own workout 1
of `dbAB` but gets the not-found value for `bob`'s workout 2. -/
theorem getWorkoutById_exact_witness :
    getWorkoutById (some "alice") dbAB 1 =
      Except.ok (some (Workout.mk 1 "alice" (some "Leg Day") 100 none 0 0)) ∧
    getWorkoutById (some "alice") dbAB 2 = Except.ok none :=
  ⟨((getWorkoutById_exact "alice" dbAB 1 (by decide)).1
      (Workout.mk 1 "alice" (some "Leg Day") 100 none 0 0)).mpr ⟨by decide, rfl, rfl⟩,
   (getWorkoutById_exact "alice" dbAB 2 (by decide)).2 (by decide)⟩

/-- C7: an over-long name or a start string that fails the datetime format
makes `createWorkoutAction` return the validation failure with the store
untouched — no workout row is inserted for such input. -/
theorem createWorkoutAction_rejectsInvalid (sess : Option String) (now : Int) (db : DB)
    (input : ActionInput)
    (hbad : (∃ n, input.name = some n ∧ 100 < n.length) ∨
      isDatetimeLocalFormat input.startedAt = false) :
    createWorkoutAction sess now db input = (ActionResult.failure "Validation failed", db) := by
  have hz : zodParse input = none := by
    unfold zodParse
    rcases hbad with ⟨n, hn, hlen⟩ | hfmt
    · have hname : nameOk input.name = false := by
        rw [hn]
        simp only [nameOk, Bool.and_eq_false_iff, decide_eq_false_iff_not, not_le]
        right
        exact hlen
      simp [hname]
    · simp [hfmt]
  simp [createWorkoutAction, hz]

/-- Witness for C7 at concrete inputs: a malformed start string and a
101-character name are each rejected with the validation failure, the
store staying empty. -/
theorem createWorkoutAction_rejectsInvalid_witness :
    createWorkoutAction (some "alice") 0 emptyDB (ActionInput.mk none "not-a-date") =
      (ActionResult.failure "Validation failed", emptyDB) ∧
    createWorkoutAction (some "alice") 0 emptyDB
        (ActionInput.mk (some (String.mk (List.replicate 101 'a'))) "2025-06-04T08:00") =
      (ActionResult.failure "Validation failed", emptyDB) :=
  ⟨createWorkoutAction_rejectsInvalid (some "alice") 0 emptyDB (ActionInput.mk none "not-a-date")
      (Or.inr (by decide)),
   createWorkoutAction_rejectsInvalid (some "alice") 0 emptyDB
      (ActionInput.mk (some (String.mk (List.replicate 101 'a'))) "2025-06-04T08:00")
      (Or.inl ⟨String.mk (List.replicate 101 'a'), rfl, by decide⟩)⟩

/-- C9: a successful `updateWorkout` changes nothing but the matched
workout row — the other three tables are untouched, every workout row is
either the target row patched or kept verbatim (so every other user's
rows survive unchanged), the patch never moves a row's identity or
ownership, and fields absent from the partial data keep their previous
values. -/
theorem updateWorkout_frame (u : String) (db : DB) (wid : Nat) (p : WorkoutPatch)
    (w : Workout) (db2 : DB)
    (h : updateWorkout (some u) db wid p = (Except.ok w, db2)) :
    db2.exercises = db.exercises ∧
    db2.workoutExercises = db.workoutExercises ∧
    db2.sets = db.sets ∧
    db2.workouts = (db.workouts.map fun r =>
      if r.id == wid && r.userId == u then applyPatch p r else r) ∧
    (∀ r ∈ db.workouts, ¬(r.id = wid ∧ r.userId = u) → r ∈ db2.workouts) ∧
    (∀ r, (applyPatch p r).id = r.id ∧ (applyPatch p r).userId = r.userId) ∧
    (p.name = none → ∀ r, (applyPatch p r).name = r.name) ∧
    (p.startedAt = none → ∀ r, (applyPatch p r).startedAt = r.startedAt) ∧
    (p.completedAt = none → ∀ r, (applyPatch p r).completedAt = r.completedAt) := by
  rcases hm : db.workouts.filter fun x => x.id == wid && x.userId == u with _ | ⟨r, rest⟩
  · simp [updateWorkout, hm] at h
  · simp only [updateWorkout, hm, List.map_cons, Prod.mk.injEq, Except.ok.injEq] at h
    obtain ⟨hw, hdb⟩ := h
    subst hdb
    refine ⟨rfl, rfl, rfl, rfl, ?_, fun r0 => ⟨rfl, rfl⟩, ?_, ?_, ?_⟩
    · intro r0 hr0 hnot
      have hcond : (r0.id == wid && r0.userId == u) = false := by
        rw [Bool.eq_false_iff]
        simpa using hnot
      exact List.mem_map.mpr ⟨r0, hr0, by simp [hcond]⟩
    · intro hn r0
      simp [applyPatch, hn]
    · intro hst r0
      simp [applyPatch, hst]
    · intro hc r0
      simp [applyPatch, hc]

/-- Witness for C9 at concrete inputs: `alice` renaming her workout 1 of
`dbAB` leaves `bob`'s row and the other tables untouched. -/
theorem updateWorkout_frame_witness :
    dbABUpd.exercises = dbAB.exercises ∧
    dbABUpd.workoutExercises = dbAB.workoutExercises ∧
    dbABUpd.sets = dbAB.sets ∧
    dbABUpd.workouts = (dbAB.workouts.map fun r =>
      if r.id == 1 && r.userId == "alice" then applyPatch patchPush r else r) ∧
    (∀ r ∈ dbAB.workouts, ¬(r.id = 1 ∧ r.userId = "alice") → r ∈ dbABUpd.workouts) ∧
    (∀ r, (applyPatch patchPush r).id = r.id ∧ (applyPatch patchPush r).userId = r.userId) ∧
    (patchPush.name = none → ∀ r, (applyPatch patchPush r).name = r.name) ∧
    (patchPush.startedAt = none → ∀ r, (applyPatch patchPush r).startedAt = r.startedAt) ∧
    (patchPush.completedAt = none → ∀ r, (applyPatch patchPush r).completedAt = r.completedAt) :=
  updateWorkout_frame "alice" dbAB 1 patchPush
    (Workout.mk 1 "alice" (some "Push Day") 100 none 0 0) dbABUpd (by decide)

/-- C8: after a successful owner delete of workout `wid`, under the
store's primary-key uniqueness no workout-exercise row referencing `wid`
remains, no set row referencing any of the removed workout-exercise rows
remains, and no day listing of any caller ever contains that workout
again. -/
theorem deleteWorkout_cascade (u : String) (db : DB) (wid : Nat) (w : Workout) (db2 : DB)
    (hnd : (db.workouts.map fun x => x.id).Nodup)
    (h : deleteWorkout (some u) db wid = (Except.ok w, db2)) :
    (∀ we ∈ db2.workoutExercises, we.workoutId ≠ wid) ∧
    (∀ s ∈ db2.sets, ∀ we ∈ db.workoutExercises,
      we.workoutId = wid → s.workoutExerciseId ≠ we.id) ∧
    (∀ v date l, getUserWorkoutsByDate (some v) db2 date = Except.ok l →
      ∀ wo ∈ l, wo.id ≠ wid) := by
  rcases hm : db.workouts.filter fun x => x.id == wid && x.userId == u with _ | ⟨r, rest⟩
  · simp [deleteWorkout, hm] at h
  · simp only [deleteWorkout, hm, Prod.mk.injEq, Except.ok.injEq] at h
    obtain ⟨hw, hdb⟩ := h
    subst hdb
    have hrf : r ∈ db.workouts.filter fun x => x.id == wid && x.userId == u := by
      rw [hm]
      exact List.mem_cons_self r rest
    have hrm := List.mem_filter.mp hrf
    have hrc := hrm.2
    simp only [Bool.and_eq_true, beq_iff_eq] at hrc
    have hwidmem : wid ∈ (r :: rest).map fun x => x.id :=
      List.mem_map.mpr ⟨r, List.mem_cons_self r rest, hrc.1⟩
    refine ⟨?_, ?_, ?_⟩
    · intro we hwe heq
      have hmem := List.mem_filter.mp hwe
      have hnc := hmem.2
      rw [Bool.not_eq_eq_eq_not, Bool.not_true] at hnc
      have : ((r :: rest).map fun x => x.id).contains we.workoutId = true := by
        rw [heq]
        exact List.elem_iff.mpr hwidmem
      rw [this] at hnc
      cases hnc
    · intro s hs we hwe hweid heq
      have hmem := List.mem_filter.mp hs
      have hnc := hmem.2
      rw [Bool.not_eq_eq_eq_not, Bool.not_true] at hnc
      have hwerem : we ∈ db.workoutExercises.filter
          fun x => ((r :: rest).map fun y => y.id).contains x.workoutId := by
        refine List.mem_filter.mpr ⟨hwe, ?_⟩
        rw [hweid]
        exact List.elem_iff.mpr hwidmem
      have : ((db.workoutExercises.filter
          fun x => ((r :: rest).map fun y => y.id).contains x.workoutId).map
            fun x => x.id).contains s.workoutExerciseId = true := by
        rw [heq]
        exact List.elem_iff.mpr (List.mem_map.mpr ⟨we, hwerem, rfl⟩)
      rw [this] at hnc
      cases hnc
    · intro v date l hl wo hwo
      simp only [getUserWorkoutsByDate, Except.ok.injEq] at hl
      subst hl
      rw [mem_workoutsForDay] at hwo
      obtain ⟨w2, hw2, hu2, hs2, he2, rfl⟩ := hwo
      intro hid
      have hw2id : w2.id = wid := hid
      have hmem := List.mem_filter.mp hw2
      have hnc := hmem.2
      rw [Bool.not_eq_eq_eq_not, Bool.not_true] at hnc
      have hw2r : w2 = r :=
        List.inj_on_of_nodup_map hnd hmem.1 hrm.1 (by rw [hw2id, hrc.1])
      rw [hw2r] at hnc
      simp [hrc.1, hrc.2] at hnc

/-- Witness for C8 at concrete inputs: after `alice` deletes workout 1 of
`dbNested`, the exercise link and its sets are gone and no listing shows
the workout. -/
theorem deleteWorkout_cascade_witness :
    (∀ we ∈ dbNestedDel.workoutExercises, we.workoutId ≠ 1) ∧
    (∀ s ∈ dbNestedDel.sets, ∀ we ∈ dbNested.workoutExercises,
      we.workoutId = 1 → s.workoutExerciseId ≠ we.id) ∧
    (∀ v date l, getUserWorkoutsByDate (some v) dbNestedDel date = Except.ok l →
      ∀ wo ∈ l, wo.id ≠ 1) :=
  deleteWorkout_cascade "alice" dbNested 1
    (Workout.mk 1 "alice" (some "Leg Day") 100 none 0 0) dbNestedDel
    (by decide) (by decide)

/-- C10: at the `createWorkoutAction` boundary a null name is accepted and
the workout is created with no display name, while an empty-string name is
rejected with the validation failure whatever the session; the submitting
form maps a blank name input to null (`name.trim() || null`), so a blank
form field still succeeds. -/
theorem nullNameOkEmptyNameRejected (u : String) (now : Int) (db : DB) (s b : String)
    (hs : isDatetimeLocalFormat s = true) (hb : strTrim b = "") :
    (createWorkoutAction (some u) now db (ActionInput.mk none s) =
      (ActionResult.success (Workout.mk db.nextId u none (parseDatetimeLocal s) none now now),
        { db with
          workouts := db.workouts ++
            [Workout.mk db.nextId u none (parseDatetimeLocal s) none now now],
          nextId := db.nextId + 1 })) ∧
    (∀ sess, createWorkoutAction sess now db (ActionInput.mk (some "") s) =
      (ActionResult.failure "Validation failed", db)) ∧
    formNameToPayload b = none ∧
    (createWorkoutAction (some u) now db (ActionInput.mk (formNameToPayload b) s) =
      (ActionResult.success (Workout.mk db.nextId u none (parseDatetimeLocal s) none now now),
        { db with
          workouts := db.workouts ++
            [Workout.mk db.nextId u none (parseDatetimeLocal s) none now now],
          nextId := db.nextId + 1 })) := by
  have hf : formNameToPayload b = none := by
    simp [formNameToPayload, hb]
  have hemp : nameOk (some "") = false := by rfl
  have h1 : createWorkoutAction (some u) now db (ActionInput.mk none s) =
      (ActionResult.success (Workout.mk db.nextId u none (parseDatetimeLocal s) none now now),
        { db with
          workouts := db.workouts ++
            [Workout.mk db.nextId u none (parseDatetimeLocal s) none now now],
          nextId := db.nextId + 1 }) := by
    simp [createWorkoutAction, zodParse, nameOk, hs, createWorkout]
  refine ⟨h1, ?_, hf, by rw [hf]; exact h1⟩
  intro sess
  simp [createWorkoutAction, zodParse, hemp]

/-- Witness for C10 at concrete inputs: with a valid start string, a null
name succeeds with no display name, the empty-string name fails
validation, and the form mapping turns the blank input into null. -/
theorem nullNameOkEmptyNameRejected_witness :
    (createWorkoutAction (some "alice") 0 emptyDB (ActionInput.mk none "2025-06-04T08:00") =
      (ActionResult.success
          (Workout.mk 0 "alice" none (parseDatetimeLocal "2025-06-04T08:00") none 0 0),
        { emptyDB with
          workouts := emptyDB.workouts ++
            [Workout.mk 0 "alice" none (parseDatetimeLocal "2025-06-04T08:00") none 0 0],
          nextId := 1 })) ∧
    (∀ sess, createWorkoutAction sess 0 emptyDB (ActionInput.mk (some "") "2025-06-04T08:00") =
      (ActionResult.failure "Validation failed", emptyDB)) ∧
    formNameToPayload " " = none ∧
    (createWorkoutAction (some "alice") 0 emptyDB
        (ActionInput.mk (formNameToPayload " ") "2025-06-04T08:00") =
      (ActionResult.success
          (Workout.mk 0 "alice" none (parseDatetimeLocal "2025-06-04T08:00") none 0 0),
        { emptyDB with
          workouts := emptyDB.workouts ++
            [Workout.mk 0 "alice" none (parseDatetimeLocal "2025-06-04T08:00") none 0 0],
          nextId := 1 })) :=
  nullNameOkEmptyNameRejected "alice" 0 emptyDB "2025-06-04T08:00" " " (by decide) (by decide)
